import Mathlib

/-!
Verification of the basket asynchronous job layer (mozilla/basket).

Shallow embedding of:
  * `parse_newsletters` (news/utils.py) — the subscription diff algorithm;
  * `upsert_contact` (news/tasks.py) — the contact reconciliation entry point;
  * the `et_task` wrapper (news/tasks.py) — maintenance gate, retry engine,
    error-message ignore lists;
  * `RefreshingSFType._call_salesforce` (news/backends/sfdc.py) — the
    session-refreshing client;
  * `mogrify_message_id` / `send_welcomes` (news/tasks.py) — welcome dispatch;
  * `update_student_ambassadors` / `FSA_FIELDS` (news/tasks.py).

Python dicts are modelled as association lists with overwrite-insert, Python
sets as insertion-ordered de-duplicated lists (the claims proved here never
depend on iteration order of sets or dicts, and where an order could matter it
is taken as a parameter).  Metrics emission (statsd) is elided everywhere: the
spec requires that counters never affect job outcome.
-/

set_option autoImplicit false

namespace Basket

/-- Action-type constant `SUBSCRIBE` (news/utils.py). -/
def SUBSCRIBE : String := "SUBSCRIBE"

/-- Action-type constant `UNSUBSCRIBE` (news/utils.py). -/
def UNSUBSCRIBE : String := "UNSUBSCRIBE"

/-- Action-type constant (news/utils.py): exact-replacement action. -/
def SET : String := "SET"

/-- Python dict assignment `m[k] = v`: overwrite the binding of `k` in place
if present, otherwise append a new binding. -/
def dinsert {β : Type} : List (String × β) → String → β → List (String × β)
  | [], k, v => [(k, v)]
  | p :: rest, k, v => if p.1 = k then (k, v) :: rest else p :: dinsert rest k v

/-- Python dict read `m.get(k)`. -/
def dlookup {β : Type} : List (String × β) → String → Option β
  | [], _ => none
  | p :: rest, k => if p.1 = k then some p.2 else dlookup rest k

/-- Key set of a modelled dict (`k in m`). -/
def dkeys {β : Type} (m : List (String × β)) : List String :=
  m.map Prod.fst

/-- Python `set(l)` / building a set by successive `add`: keep first
occurrences, in order. -/
def pySet {α : Type} [DecidableEq α] (l : List α) : List α :=
  l.foldl (fun acc x => if x ∈ acc then acc else acc ++ [x]) []

/-- Shallow embedding of `parse_newsletters` (news/utils.py, lines 346-406).

`groups` stands for `newsletter_group_newsletter_slugs` (news/newsletters.py,
not under src/): it returns the member slugs of a group newsletter, and the
empty list for a non-group slug (Python: a falsy value), so group membership is
resolved once per requested slug, never recursively.  `cur_newsletters = none`
models the Python `None` ("there was an error" / unknown user). -/
def parse_newsletters (groups : String → List String) (api_call_type : String)
    (newsletters : List String) (cur_newsletters : Option (List String)) :
    List (String × Bool) :=
  let cur : List String := pySet (cur_newsletters.getD [])
  let newsletters :=
    if api_call_type = SUBSCRIBE then
      pySet (newsletters.flatMap (fun nl =>
        let group_nl := groups nl
        if group_nl ≠ [] then group_nl else [nl]))
    else newsletters
  let m :=
    if api_call_type = SUBSCRIBE ∨ api_call_type = SET then
      newsletters.foldl (fun m nl => dinsert m nl true) []
    else []
  if api_call_type = UNSUBSCRIBE ∨ api_call_type = SET then
    let unsubs :=
      if api_call_type = SET then
        if cur ≠ [] then cur.filter (fun s => decide (s ∉ newsletters)) else []
      else newsletters
    unsubs.foldl (fun m nl => dinsert m nl false) m
  else m

/-- Python `c.lower()` for a single character (ASCII). -/
def pyLowerChar (c : Char) : Char :=
  if 'A' ≤ c ∧ c ≤ 'Z' then Char.ofNat (c.toNat + 32) else c

/-- Python `c.upper()` for a single character (ASCII). -/
def pyUpperChar (c : Char) : Char :=
  if 'a' ≤ c ∧ c ≤ 'z' then Char.ofNat (c.toNat - 32) else c

/-- Python `s.lower()`. -/
def pyLower (s : String) : String := ⟨s.data.map pyLowerChar⟩

/-- Python `s.upper()`. -/
def pyUpper (s : String) : String := ⟨s.data.map pyUpperChar⟩

/-- Python `s.startswith(p)`. -/
def pyStartsWith (s p : String) : Bool := p.data.isPrefixOf s.data

/-- Python slice `s[:n]`. -/
def pyTake (s : String) (n : Nat) : String := ⟨s.data.take n⟩

/-- The whitespace characters stripped by Python `str.strip()`. -/
def pyIsSpace (c : Char) : Bool :=
  (c == ' ') || (c == '\t') || (c == '\n') || (c == '\r') || (c == '\x0B') || (c == '\x0C')

/-- Python `s.strip()`. -/
def pyStrip (s : String) : String :=
  ⟨((s.data.dropWhile pyIsSpace).reverse.dropWhile pyIsSpace).reverse⟩

/-- Splitting a character list at a separator character; never returns `[]`,
matching Python `str.split(sep)` which returns `[""]` on the empty string. -/
def splitCharList (sep : Char) : List Char → List (List Char)
  | [] => [[]]
  | c :: rest =>
    let r := splitCharList sep rest
    if c = sep then [] :: r
    else
      match r with
      | [] => [[c]]
      | h :: t => (c :: h) :: t

/-- Python `s.split(sep)` for a one-character separator (the embedded code
only ever splits on a comma). -/
def pySplit (sep : Char) (s : String) : List String :=
  (splitCharList sep s.data).map (fun l => ⟨l⟩)

/-- Python substring test `needle in haystack`. -/
def pyContainsSub (haystack needle : String) : Bool :=
  (List.range (haystack.data.length + 1)).any
    (fun i => needle.data.isPrefixOf (haystack.data.drop i))

/-- Modelled from the spec: a NewsletterDefinition record (news/models.py is
not under src/).  Slug, the double-opt-in requirement flag, the welcome
message id and the supported language list are the only fields the embedded
code reads. -/
structure NewsletterRec where
  slug : String
  requires_double_optin : Bool
  welcome : String
  language_list : List String
deriving DecidableEq

/-- The request `data` POST dict, restricted to the keys `upsert_contact`
reads.  `none` models an absent key; `optin` is the truthiness of
`data.get('optin')` (absent and false coincide everywhere this is read). -/
structure RequestData where
  format : Option String
  newsletters : Option String
  optin : Bool
  token : Option String
deriving DecidableEq

/-- The existing contact state (`user_data` fetched from SFDC) as read by
`upsert_contact`: `token = ""` models a missing or falsy token,
`newsletters = none` an absent key. -/
structure UserData where
  newsletters : Option (List String)
  optin : Bool
  token : String
deriving DecidableEq

/-- The `data` dict at the moment it is handed to `sfdc.add`/`sfdc.update`. -/
structure OutData where
  format : Option String
  newsletters : List (String × Bool)
  optin : Bool
  token : Option String
deriving DecidableEq

/-- One upstream write call issued by `upsert_contact`. -/
inductive SFWrite
  | add (data : OutData)
  | update (user : UserData) (data : OutData)
deriving DecidableEq

/-- The `data` dict carried by an upstream write call. -/
def SFWrite.payload : SFWrite → OutData
  | .add d => d
  | .update _ d => d

/-- Result of `upsert_contact`: the upstream write calls it issued, in order,
and its return value.  `Except.error` models an uncaught Python `KeyError`
escaping the function. -/
structure UpsertResult where
  writes : List SFWrite
  ret : Except String (String × Bool)

/-- Shallow embedding of `upsert_contact` (news/tasks.py, lines 404-450).

`groups` stands for `newsletter_group_newsletter_slugs` and `newsletterDB` for
the Newsletter table queried through the Django ORM (news/newsletters.py and
news/models.py are not under src/); `fresh_token` is the value produced by
`generate_token()` (a fresh UUID) where the code mints one. -/
def upsert_contact (groups : String → List String)
    (newsletterDB : List NewsletterRec) (fresh_token : String)
    (api_call_type : String) (data : RequestData) (user_data : Option UserData) :
    UpsertResult :=
  let dataFormat := data.format.map (fun f =>
    if pyStartsWith (pyUpper f) "T" then "T" else "H")
  let newsletters := (pySplit ',' (data.newsletters.getD "")).map pyStrip
  let cur_newsletters :=
    match user_data with
    | some u => u.newsletters
    | none => none
  let delta := parse_newsletters groups api_call_type newsletters cur_newsletters
  let dataOptin :=
    if !(data.optin || (match user_data with | some u => u.optin | none => false)) then
      let to_subscribe := (delta.filter (fun p => p.2)).map Prod.fst
      newsletterDB.any (fun nl =>
        to_subscribe.contains nl.slug && !nl.requires_double_optin)
    else data.optin
  match user_data with
  | none =>
    { writes := [SFWrite.add ⟨dataFormat, delta, dataOptin, some fresh_token⟩],
      ret := Except.ok (fresh_token, true) }
  | some u =>
    let dataToken := if u.token = "" then some fresh_token else data.token
    { writes := [SFWrite.update u ⟨dataFormat, delta, dataOptin, dataToken⟩],
      ret :=
        match dataToken with
        | some t => Except.ok (t, false)
        | none => Except.error "KeyError" }

/-- Stated from claim C3: the newly subscribed slugs of a delta — the slugs it
maps to true that the contact was not already subscribed to. -/
def newly_subscribed (delta : List (String × Bool)) (cur : List String) :
    List String :=
  (delta.filter (fun p => p.2 && !(cur.contains p.1))).map Prod.fst

/-- Constant `IGNORE_ERROR_MSGS` (news/tasks.py, lines 40-43): error messages that end
the job successfully with no retry at all. -/
def IGNORE_ERROR_MSGS : List String :=
  ["InvalidEmailAddress", "An invalid phone number was provided"]

/-- Constant `IGNORE_ERROR_MSGS_POST_RETRY` (news/tasks.py, lines 45-47): error
messages not propagated once the retry bound is exhausted. -/
def IGNORE_ERROR_MSGS_POST_RETRY : List String :=
  ["There are no valid subscribers"]

/-- Constant `MAINTENANCE_EXEMPT` (news/tasks.py, lines 49-54): task names exempt from
maintenance-mode queuing. -/
def MAINTENANCE_EXEMPT : List String :=
  ["news.tasks.add_fxa_activity", "news.tasks.update_student_ambassadors",
   "news.tasks.add_sms_user", "news.tasks.add_sms_user_optin"]

/-- Constant `ETTask.max_retries` (news/tasks.py, line 70). -/
def max_retries : Nat := 8

/-- The loop `for ignore_msg in msgs: if ignore_msg in exc_msg: return`:
true iff some configured message is a substring of the raised message. -/
def matchesIgnore (msgs : List String) (exc_msg : String) : Bool :=
  msgs.any (fun m => pyContainsSub exc_msg m)

/-- Terminal state of one submitted job. -/
inductive JobOutcome
  | queued
  | success
  | raised (msg : String)
deriving DecidableEq

/-- Trace of the retry engine on one job: how many times the wrapped function
ran, every scheduled retry as (retry count at scheduling time, countdown in
seconds), and the terminal outcome. -/
structure RetryRun where
  attempts : Nat
  sched : List (Nat × Nat)
  outcome : JobOutcome
deriving DecidableEq

/-- Shallow embedding of the failure-classifying body of `et_task`
(news/tasks.py, lines 158-181) together with celery's retry bookkeeping.

`fail n` describes the n-th execution of the wrapped function (celery
`request.retries = n`): `none` is a normal return, `some msg` a transient-I/O
error (IOError / NewsletterException / ETRestError) with message `msg`.
Unclassified and explicit-fatal exceptions propagate outside this handler and
are not part of the claims settled here.  Celery's `Task.retry` raises
`MaxRetriesExceededError` exactly when `request.retries + 1` would exceed
`max_retries`; the countdown passed by the source is
`(2 ** wrapped.request.retries) * 60`. -/
def run_et_task (fail : Nat → Option String) (n : Nat) : RetryRun :=
  match fail n with
  | none => ⟨1, [], .success⟩
  | some msg =>
    if matchesIgnore IGNORE_ERROR_MSGS msg then ⟨1, [], .success⟩
    else if h : n < max_retries then
      let rest := run_et_task fail (n + 1)
      ⟨rest.attempts + 1, (n, 2 ^ n * 60) :: rest.sched, rest.outcome⟩
    else if matchesIgnore IGNORE_ERROR_MSGS_POST_RETRY msg then ⟨1, [], .success⟩
    else ⟨1, [], .raised msg⟩
termination_by max_retries - n
decreasing_by omega

/-- Modelled from the spec: a QueuedTask row (news/models.py is not under
src/): the durable record {operation name, args, kwargs} of a deferred job. -/
structure QueuedTask where
  name : String
  args : List String
  kwargs : List (String × String)
deriving DecidableEq

/-- Observable effects of one submission through the `et_task` wrapper. -/
structure TaskRun where
  queued : List QueuedTask
  attempts : Nat
  sched : List (Nat × Nat)
  outcome : JobOutcome
deriving DecidableEq

/-- Shallow embedding of the `et_task` wrapper (news/tasks.py, lines 137-182):
the maintenance gate followed by the classified execution; statsd counters are
elided (the spec forbids them from affecting the outcome). -/
def et_task_invoke (maintenance_mode : Bool) (name : String) (args : List String)
    (kwargs : List (String × String)) (fail : Nat → Option String) : TaskRun :=
  if maintenance_mode && !(MAINTENANCE_EXEMPT.contains name) then
    { queued := [⟨name, args, kwargs⟩], attempts := 0, sched := [], outcome := .queued }
  else
    let r := run_et_task fail 0
    { queued := [], attempts := r.attempts, sched := r.sched, outcome := r.outcome }

/-- Modelled from the spec: `admit(operation_name) -> bool` of §4.2 — false
(defer) iff the maintenance flag is true and the operation is not in the
exemption set.  The source writes the deferral condition inline
(`settings.MAINTENANCE_MODE and wrapped.name not in MAINTENANCE_EXEMPT`). -/
def gate_allows (maintenance_flag : Bool) (name : String) : Bool :=
  !(maintenance_flag && !(MAINTENANCE_EXEMPT.contains name))

/-- FailedTask records created by `ETTask.on_failure` (news/tasks.py, lines
88-115): one (name, exception) record iff the job terminally raises and
`settings.STORE_TASK_FAILURES` is set. -/
def failed_records (store_task_failures : Bool) (name : String)
    (o : JobOutcome) : List (String × String) :=
  match o with
  | .raised msg => if store_task_failures then [(name, msg)] else []
  | _ => []

/-- Behavior of one underlying `SFType._call_salesforce` call: a response,
a `SalesforceExpiredSession`, or any other exception. -/
inductive SFCallResult
  | ok (resp : String)
  | expired
  | err (e : String)
deriving DecidableEq

/-- Final outcome of one invocation through the refreshing wrapper. -/
inductive SFOutcome
  | ok (resp : String)
  | expiredError
  | err (e : String)
deriving DecidableEq

/-- Trace of one invocation of the refreshing wrapper: underlying calls
issued, re-authentications performed, and the outcome. -/
structure SFTrace where
  calls : Nat
  logins : Nat
  outcome : SFOutcome
deriving DecidableEq

/-- Shallow embedding of `RefreshingSFType._call_salesforce`
(news/backends/sfdc.py, lines 91-110).  `attempt i` is what the i-th
underlying call of this invocation does.  Only `SalesforceExpiredSession` is
caught, and only around the first call; the re-login (`get_sf_session`,
which rebinds `self.session_id`) is counted in `logins`.  The rate-limit
gauge read from response headers is metrics-only and elided. -/
def call_salesforce (attempt : Nat → SFCallResult) : SFTrace :=
  match attempt 0 with
  | .ok r => ⟨1, 0, .ok r⟩
  | .err e => ⟨1, 0, .err e⟩
  | .expired =>
    match attempt 1 with
    | .ok r => ⟨2, 1, .ok r⟩
    | .err e => ⟨2, 1, .err e⟩
    | .expired => ⟨2, 1, .expiredError⟩

/-- Shallow embedding of `mogrify_message_id` (news/tasks.py, lines 496-511):
prefix the lowercased 2-letter language code and `_` unless `lang` is empty,
and append `_T` iff the format is text. -/
def mogrify_message_id (message_id lang format : String) : String :=
  let result :=
    if lang ≠ "" then pyTake (pyLower lang) 2 ++ "_" ++ message_id else message_id
  if format = "T" then result ++ "_T" else result

/-- The loop body of `send_welcomes` (news/tasks.py, lines 569-581) for one
newsletter: `none` when the newsletter has no (stripped) welcome message,
otherwise the mogrified message id, falling back to "en" when the
newsletter's own language list does not support the contact's language.
`user_lang = none` models an absent `lang` key (`user_data.get('lang',
'en')`). -/
def newsletter_welcome_id (user_lang : Option String) (format : String)
    (nl : NewsletterRec) : Option String :=
  let welcome := pyStrip nl.welcome
  if welcome = "" then none
  else
    let languages := nl.language_list.map (fun lang => pyLower (pyTake lang 2))
    let lang_code0 := pyLower (pyTake (user_lang.getD "en") 2)
    let lang_code := if lang_code0 ∈ languages then lang_code0 else "en"
    some (mogrify_message_id welcome lang_code format)

/-- The set-insertion step of the `send_welcomes` loop: resolve one
newsletter's welcome id and add it to the accumulated set (kept as a
duplicate-free list in insertion order). -/
def welcome_step (user_lang : Option String) (format : String)
    (acc : List String) (nl : NewsletterRec) : List String :=
  match newsletter_welcome_id user_lang format nl with
  | none => acc
  | some w => if w ∈ acc then acc else acc ++ [w]

/-- Shallow embedding of `send_welcomes` (news/tasks.py, lines 547-588): the
list of message ids handed to `send_message.delay`, in dispatch order.  `db`
is the Newsletter table (the Django filter keeps the records whose slug is in
`newsletter_slugs`); the welcome ids are collected into a set before
dispatch. -/
def send_welcomes (db : List NewsletterRec) (user_lang : Option String)
    (newsletter_slugs : List String) (format : String) : List String :=
  if newsletter_slugs = [] then []
  else
    (db.filter (fun nl => decide (nl.slug ∈ newsletter_slugs))).foldl
      (welcome_step user_lang format) []

/-- Constant `FSA_FIELDS` (news/tasks.py, lines 332-344): the key/field-name pairs of
the Python dict (its iteration order is arbitrary in Python 2 and is taken as
a parameter where it matters). -/
def FSA_FIELDS : List (String × String) :=
  [("EMAIL_ADDRESS", "Email"),
   ("TOKEN", "Token__c"),
   ("FIRST_NAME", "FirstName"),
   ("LAST_NAME", "LastName"),
   ("COUNTRY_", "MailingCountryCode"),
   ("STUDENTS_SCHOOL", "FSA_School__c"),
   ("STUDENTS_GRAD_YEAR", "FSA_Grad_Year__c"),
   ("STUDENTS_MAJOR", "FSA_Major__c"),
   ("STUDENTS_CITY", "FSA_City__c"),
   ("STUDENTS_CURRENT_STATUS", "FSA_Current_Status__c"),
   ("STUDENTS_ALLOW_SHARE", "FSA_Allow_Info_Shared__c")]

/-- Python tuple unpacking `k, fn = s` where `s` is a string: binds the two
characters when `s` has exactly two, raises ValueError otherwise. -/
def pyUnpack2 (s : String) : Except String (Char × Char) :=
  match s.data with
  | [a, b] => Except.ok (a, b)
  | _ => Except.error "ValueError"

/-- A Python value stored into `update_data`: a string copied from `data`, or
the boolean produced for STUDENTS_ALLOW_SHARE. -/
inductive PyVal
  | str (s : String)
  | bool (b : Bool)
deriving DecidableEq

/-- The single upstream write `sfdc.update({'token': token}, update_data)`
issued at the end of `update_student_ambassadors` when the loop completes. -/
structure FSAUpdate where
  user_token : String
  update_data : List (String × PyVal)
deriving DecidableEq

/-- Shallow embedding of the body of `update_student_ambassadors`
(news/tasks.py, lines 347-359).  `order` is the iteration order of
`for k, fn in FSA_FIELDS`: Python 2 iterates the bare key strings of the
dict, in arbitrary order, and the for-statement unpacks each key string into
the pair `(k, fn)`.  An `Except.error` models the uncaught ValueError; the
`sfdc.update` write is the `Except.ok` payload, so an error result means no
upstream write was issued. -/
def update_student_ambassadors (order : List String)
    (data : List (String × String)) (token : String) : Except String FSAUpdate :=
  let data := dinsert data "TOKEN" token
  let step : List (String × PyVal) → String →
      Except String (List (String × PyVal)) := fun update_data s =>
    match pyUnpack2 s with
    | .error e => .error e
    | .ok (kc, fnc) =>
      let k : String := ⟨[kc]⟩
      let fn : String := ⟨[fnc]⟩
      match dlookup data k with
      | none => .ok update_data
      | some v =>
        let val := if k = "STUDENTS_ALLOW_SHARE"
          then PyVal.bool (pyStartsWith (pyLower v) "y") else PyVal.str v
        .ok (dinsert update_data fn val)
  match order.foldlM step [] with
  | .error e => .error e
  | .ok update_data => .ok ⟨token, update_data⟩

theorem dlookup_dinsert {β : Type} (m : List (String × β)) (k k' : String) (v : β) :
    dlookup (dinsert m k v) k' = if k = k' then some v else dlookup m k' := by
  induction m with
  | nil => simp [dinsert, dlookup]
  | cons p rest ih =>
    by_cases h : p.1 = k
    · simp only [dinsert, if_pos h, dlookup]
      by_cases h2 : k = k'
      · simp [h2]
      · simp [h2, h ▸ h2, dlookup, ← h]
    · simp only [dinsert, if_neg h, dlookup]
      by_cases h2 : p.1 = k'
      · have : ¬ k = k' := fun e => h (e ▸ h2)
        simp [h2, this]
      · simp [h2, ih]

theorem mem_dkeys_dinsert {β : Type} (m : List (String × β)) (k k' : String) (v : β) :
    k' ∈ dkeys (dinsert m k v) ↔ k' = k ∨ k' ∈ dkeys m := by
  induction m with
  | nil => simp [dinsert, dkeys]
  | cons p rest ih =>
    by_cases h : p.1 = k
    · simp only [dinsert, if_pos h, dkeys, List.map_cons, List.mem_cons]
      constructor
      · rintro (h1 | h1)
        · exact Or.inl h1
        · exact Or.inr (Or.inr h1)
      · rintro (h1 | h1 | h1)
        · exact Or.inl h1
        · exact Or.inl (h ▸ h1.symm ▸ rfl)
        · exact Or.inr h1
    · simp only [dinsert, if_neg h, dkeys, List.map_cons, List.mem_cons] at *
      rw [ih]
      tauto

theorem dlookup_eq_none_iff {β : Type} (m : List (String × β)) (k : String) :
    dlookup m k = none ↔ k ∉ dkeys m := by
  induction m with
  | nil => simp [dlookup, dkeys]
  | cons p rest ih =>
    by_cases h : p.1 = k
    · simp [dlookup, h, dkeys]
    · simp only [dlookup, if_neg h, dkeys, List.map_cons, List.mem_cons]
      rw [ih]
      constructor
      · rintro h1 (h2 | h2)
        · exact h h2.symm
        · exact h1 h2
      · intro h1
        exact fun h2 => h1 (Or.inr h2)

theorem mem_pySet {α : Type} [DecidableEq α] (l : List α) (x : α) :
    x ∈ pySet l ↔ x ∈ l := by
  have general : ∀ (l acc : List α),
      x ∈ l.foldl (fun acc x => if x ∈ acc then acc else acc ++ [x]) acc ↔
        x ∈ acc ∨ x ∈ l := by
    intro l
    induction l with
    | nil => simp
    | cons a rest ih =>
      intro acc
      simp only [List.foldl_cons, ih, List.mem_cons]
      by_cases h : a ∈ acc
      · simp only [if_pos h]
        constructor
        · rintro (h1 | h1)
          · exact Or.inl h1
          · exact Or.inr (Or.inr h1)
        · rintro (h1 | h1 | h1)
          · exact Or.inl h1
          · exact Or.inl (h1 ▸ h)
          · exact Or.inr h1
      · simp only [if_neg h, List.mem_append, List.mem_singleton]
        tauto
  simpa using general l []

/-- Fold that subscribes (or unsubscribes) every slug in `l` into dict `m₀`:
its lookups. -/
theorem dlookup_foldl_dinsert (l : List String) (b : Bool)
    (m₀ : List (String × Bool)) (s : String) :
    dlookup (l.foldl (fun m nl => dinsert m nl b) m₀) s =
      if s ∈ l then some b else dlookup m₀ s := by
  induction l generalizing m₀ with
  | nil => simp
  | cons a rest ih =>
    simp only [List.foldl_cons, ih, dlookup_dinsert, List.mem_cons]
    by_cases h1 : s ∈ rest
    · simp [h1]
    · by_cases h2 : a = s
      · simp [h1, h2]
      · have h3 : ¬ s = a := fun e => h2 e.symm
        simp [h1, h2, h3]

theorem mem_dkeys_foldl_dinsert (l : List String) (b : Bool)
    (m₀ : List (String × Bool)) (s : String) :
    s ∈ dkeys (l.foldl (fun m nl => dinsert m nl b) m₀) ↔ s ∈ l ∨ s ∈ dkeys m₀ := by
  induction l generalizing m₀ with
  | nil => simp
  | cons a rest ih =>
    simp only [List.foldl_cons, ih, mem_dkeys_dinsert, List.mem_cons]
    tauto

example :
    parse_newsletters (fun _ => []) SET ["a", "b"] (some ["b", "c"]) =
      [("a", true), ("b", true), ("c", false)] := by decide

example :
    parse_newsletters (fun g => if g = "grp" then ["m1", "m2"] else [])
      SUBSCRIBE ["grp", "x"] (some ["c"]) =
      [("m1", true), ("m2", true), ("x", true)] := by decide

example :
    parse_newsletters (fun _ => []) UNSUBSCRIBE ["a", "b"] (some ["b", "c"]) =
      [("a", false), ("b", false)] := by decide

/-- Lookup characterization of the SET branch of `parse_newsletters`. -/
theorem dlookup_parse_newsletters_SET (groups : String → List String)
    (R : List String) (C : Option (List String)) (s : String) :
    dlookup (parse_newsletters groups SET R C) s =
      if s ∈ C.getD [] ∧ s ∉ R then some false
      else if s ∈ R then some true else none := by
  have hsub : (SET = SUBSCRIBE) = False := by simp [SET, SUBSCRIBE]
  have hset : (SET = SET) = True := by simp
  have huns : (SET = UNSUBSCRIBE) = False := by simp [SET, UNSUBSCRIBE]
  simp only [parse_newsletters, hsub, huns, hset, if_false, if_true, false_or, or_true,
    ne_eq, ite_not]
  rw [dlookup_foldl_dinsert, dlookup_foldl_dinsert]
  have hm : (s ∈ (if pySet (C.getD []) = [] then ([] : List String)
      else (pySet (C.getD [])).filter (fun s => decide (s ∉ R)))) ↔
      (s ∈ C.getD [] ∧ s ∉ R) := by
    by_cases hc : pySet (C.getD []) = []
    · rw [if_pos hc]
      simp only [List.not_mem_nil, false_iff]
      rintro ⟨h1, -⟩
      have h2 := (mem_pySet (C.getD []) s).mpr h1
      rw [hc] at h2
      exact List.not_mem_nil s h2
    · rw [if_neg hc]
      simp only [List.mem_filter, mem_pySet, decide_eq_true_eq]
  by_cases h1 : s ∈ C.getD [] ∧ s ∉ R
  · rw [if_pos (hm.mpr h1), if_pos h1]
  · rw [if_neg (fun hc => h1 (hm.mp hc)), if_neg h1]
    by_cases h2 : s ∈ R
    · rw [if_pos h2, if_pos h2]
    · rw [if_neg h2, if_neg h2]
      rfl

/-- C1: for every requested slug list `R` and every current subscription set
`C` (absent treated as empty), `parse_newsletters` with action SET returns
exactly the mapping sending every slug of `R` to true, every slug of `C` not
in `R` to false, and containing no other key. -/
theorem parse_newsletters_SET_exact (groups : String → List String)
    (R : List String) (C : Option (List String)) (s : String) :
    (dlookup (parse_newsletters groups SET R C) s = some true ↔ s ∈ R) ∧
    (dlookup (parse_newsletters groups SET R C) s = some false ↔
      s ∈ C.getD [] ∧ s ∉ R) ∧
    (s ∈ dkeys (parse_newsletters groups SET R C) ↔ s ∈ R ∨ s ∈ C.getD []) := by
  have hmaster := dlookup_parse_newsletters_SET groups R C s
  have hkeys := dlookup_eq_none_iff (parse_newsletters groups SET R C) s
  rw [hmaster] at hkeys
  refine ⟨?_, ?_, ?_⟩
  · rw [hmaster]
    by_cases h1 : s ∈ C.getD [] ∧ s ∉ R
    · simp only [if_pos h1]
      simp only [Option.some.injEq, Bool.false_eq_true, false_iff]
      exact h1.2
    · rw [if_neg h1]
      by_cases h2 : s ∈ R
      · simp [h2]
      · simp [h2]
  · rw [hmaster]
    by_cases h1 : s ∈ C.getD [] ∧ s ∉ R
    · simp [h1]
    · rw [if_neg h1]
      by_cases h2 : s ∈ R
      · simp only [if_pos h2, Option.some.injEq, Bool.true_eq_false, false_iff]
        exact h1
      · simp only [if_neg h2, reduceCtorEq, false_iff]
        exact h1
  · by_cases h1 : s ∈ C.getD [] ∧ s ∉ R
    · rw [if_pos h1] at hkeys
      simp only [reduceCtorEq, false_iff, not_not] at hkeys
      simp [hkeys, h1.1]
    · rw [if_neg h1] at hkeys
      by_cases h2 : s ∈ R
      · rw [if_pos h2] at hkeys
        simp only [reduceCtorEq, false_iff, not_not] at hkeys
        simp [hkeys, h2]
      · rw [if_neg h2] at hkeys
        simp only [true_iff] at hkeys
        push_neg at h1
        constructor
        · intro h3
          exact absurd h3 hkeys
        · rintro (h3 | h3)
          · exact absurd h3 h2
          · exact absurd (h1 h3) h2

/-- Lookup characterization of the SUBSCRIBE branch of `parse_newsletters`:
every requested slug — with each group slug replaced by its member slugs —
maps to true, and nothing else is present. -/
theorem dlookup_parse_newsletters_SUBSCRIBE (groups : String → List String)
    (R : List String) (C : Option (List String)) (s : String) :
    dlookup (parse_newsletters groups SUBSCRIBE R C) s =
      if s ∈ R.flatMap (fun nl => if groups nl = [] then [nl] else groups nl)
      then some true else none := by
  have hsub : (SUBSCRIBE = SUBSCRIBE) = True := by simp
  have hset : (SUBSCRIBE = SET) = False := by simp [SET, SUBSCRIBE]
  have huns : (SUBSCRIBE = UNSUBSCRIBE) = False := by simp [SUBSCRIBE, UNSUBSCRIBE]
  simp only [parse_newsletters, hsub, hset, huns, if_true, if_false, true_or, or_false,
    false_or, ne_eq, ite_not]
  rw [dlookup_foldl_dinsert]
  by_cases h : s ∈ R.flatMap (fun nl => if groups nl = [] then [nl] else groups nl)
  · rw [if_pos ((mem_pySet _ _).mpr h), if_pos h]
  · rw [if_neg (fun hc => h ((mem_pySet _ _).mp hc)), if_neg h]
    rfl

/-- C2: for every request and current set, `parse_newsletters` with action
SUBSCRIBE maps no slug to false; its keys are exactly the non-group requested
slugs together with the member slugs of requested groups (so every key is an
originally requested slug or a member slug of a group named in the request,
groups being expanded once via `groups`, not recursively), and every key maps
to true. -/
theorem parse_newsletters_SUBSCRIBE_delta (groups : String → List String)
    (R : List String) (C : Option (List String)) (s : String) :
    (dlookup (parse_newsletters groups SUBSCRIBE R C) s = some true ∨
     dlookup (parse_newsletters groups SUBSCRIBE R C) s = none) ∧
    (s ∈ dkeys (parse_newsletters groups SUBSCRIBE R C) ↔
      (s ∈ R ∧ groups s = []) ∨ ∃ r ∈ R, s ∈ groups r) ∧
    (dlookup (parse_newsletters groups SUBSCRIBE R C) s = some true ↔
      s ∈ dkeys (parse_newsletters groups SUBSCRIBE R C)) := by
  have hmaster := dlookup_parse_newsletters_SUBSCRIBE groups R C s
  have hexp : s ∈ R.flatMap (fun nl => if groups nl = [] then [nl] else groups nl) ↔
      (s ∈ R ∧ groups s = []) ∨ ∃ r ∈ R, s ∈ groups r := by
    rw [List.mem_flatMap]
    constructor
    · rintro ⟨r, hr, hs⟩
      by_cases hg : groups r = []
      · rw [if_pos hg] at hs
        simp only [List.mem_singleton] at hs
        exact Or.inl ⟨hs ▸ hr, hs ▸ hg⟩
      · rw [if_neg hg] at hs
        exact Or.inr ⟨r, hr, hs⟩
    · rintro (⟨hr, hg⟩ | ⟨r, hr, hs⟩)
      · exact ⟨s, hr, by rw [if_pos hg]; exact List.mem_singleton_self s⟩
      · have hg : groups r ≠ [] := fun h => by
          rw [h] at hs
          exact List.not_mem_nil s hs
        exact ⟨r, hr, by rwa [if_neg hg]⟩
  have hkeys : s ∈ dkeys (parse_newsletters groups SUBSCRIBE R C) ↔
      s ∈ R.flatMap (fun nl => if groups nl = [] then [nl] else groups nl) := by
    have hnone := dlookup_eq_none_iff (parse_newsletters groups SUBSCRIBE R C) s
    rw [hmaster] at hnone
    by_cases h : s ∈ R.flatMap (fun nl => if groups nl = [] then [nl] else groups nl)
    · rw [if_pos h] at hnone
      simp only [reduceCtorEq, false_iff, not_not] at hnone
      simp [hnone, h]
    · rw [if_neg h] at hnone
      simp only [true_iff] at hnone
      simp [hnone, h]
  refine ⟨?_, ?_, ?_⟩
  · by_cases h : s ∈ R.flatMap (fun nl => if groups nl = [] then [nl] else groups nl)
    · exact Or.inl (by rw [hmaster, if_pos h])
    · exact Or.inr (by rw [hmaster, if_neg h])
  · rw [hkeys]
    exact hexp
  · rw [hkeys, hmaster]
    by_cases h : s ∈ R.flatMap (fun nl => if groups nl = [] then [nl] else groups nl)
    · simp [h]
    · simp [h]

/-! Python string primitives, modelled over the character list of a `String`
so that they are structural and evaluate inside the kernel.  Case mapping is
ASCII-only: every string the embedded code case-maps is ASCII. -/

example : pySplit ',' "a, b" = ["a", " b"] := by decide

example : pySplit ',' "" = [""] := by decide

example : pyStrip " b " = "b" := by decide

example : pyContainsSub "rich InvalidEmailAddress tail" "InvalidEmailAddress" = true := by
  decide

example : pyContainsSub "other" "InvalidEmailAddress" = false := by decide

/-- C3 counterexample: the contact is already subscribed to newsletter "x",
which does not require double opt-in, and the request re-subscribes exactly
"x" with no opt-in granted on either side.  No slug is newly subscribed, so
the claim predicts opt-in stays false, but the code checks every slug the
delta maps to true (including already-subscribed ones) and writes
`optin = true`. -/
theorem upsert_contact_optin_counterexample :
    (upsert_contact (fun _ => []) [⟨"x", false, "", []⟩] "f" SUBSCRIBE
        ⟨none, some "x", false, some "t"⟩ (some ⟨some ["x"], false, "t"⟩)).writes =
      [SFWrite.update ⟨some ["x"], false, "t"⟩
        ⟨none, [("x", true)], true, some "t"⟩] ∧
    newly_subscribed
      (parse_newsletters (fun _ => []) SUBSCRIBE ["x"] (some ["x"])) ["x"] = [] := by
  exact ⟨rfl, rfl⟩

/-- C3 as amended: in `upsert_contact`, when neither the request data nor the
existing contact state grants opt-in, opt-in is written as true if and only if
at least one slug mapped to true by the reconciliation delta — whether or not
the contact was already subscribed to it — belongs to a newsletter whose
double-opt-in requirement flag is false. -/
theorem upsert_contact_optin_amended (groups : String → List String)
    (newsletterDB : List NewsletterRec) (fresh_token : String)
    (api_call_type : String) (data : RequestData) (user_data : Option UserData)
    (hd : data.optin = false)
    (hu : ∀ u, user_data = some u → u.optin = false) :
    (upsert_contact groups newsletterDB fresh_token api_call_type data
        user_data).writes.map (fun w => w.payload.optin) =
      [newsletterDB.any (fun nl =>
        (((parse_newsletters groups api_call_type
              ((pySplit ',' (data.newsletters.getD "")).map pyStrip)
              (match user_data with
               | some u => u.newsletters
               | none => none)).filter (fun p => p.2)).map Prod.fst).contains nl.slug &&
        !nl.requires_double_optin)] := by
  cases user_data with
  | none =>
    simp only [upsert_contact, hd, Bool.or_false, Bool.not_false, if_true,
      List.map_cons, List.map_nil, SFWrite.payload]
  | some u =>
    have hu' := hu u rfl
    simp only [upsert_contact, hd, hu', Bool.or_false, Bool.not_false, if_true,
      List.map_cons, List.map_nil, SFWrite.payload]

/-- C3 amended, instantiated: a fresh contact subscribing to "y", which does
not require double opt-in, gets opt-in written as true. -/
theorem upsert_contact_optin_amended_witness :
    (upsert_contact (fun _ => []) [⟨"y", false, "", []⟩] "f" SUBSCRIBE
        ⟨none, some "y", false, none⟩ none).writes.map (fun w => w.payload.optin) =
      [true] := by
  have h := upsert_contact_optin_amended (fun _ => []) [⟨"y", false, "", []⟩] "f"
    SUBSCRIBE ⟨none, some "y", false, none⟩ none rfl (fun u h => by cases h)
  rw [h]
  rfl

/-- C4, at the failing input: on the update path, with an existing contact
whose token is "t1" and request data that carries no token key, the single
upstream write is an update (never a create), but the call then raises
`KeyError('token')` instead of returning the contact's existing token "t1"
with `created = false`. -/
theorem upsert_contact_update_keyerror :
    (upsert_contact (fun _ => []) [] "f" SET ⟨none, none, false, none⟩
        (some ⟨some [], false, "t1"⟩)).writes =
      [SFWrite.update ⟨some [], false, "t1"⟩ ⟨none, [("", true)], false, none⟩] ∧
    (upsert_contact (fun _ => []) [] "f" SET ⟨none, none, false, none⟩
        (some ⟨some [], false, "t1"⟩)).ret = Except.error "KeyError" := by
  exact ⟨rfl, rfl⟩

theorem run_et_task_attempts_pos (fail : Nat → Option String) (n : Nat) :
    1 ≤ (run_et_task fail n).attempts := by
  rw [run_et_task.eq_def]
  split
  · simp
  · split
    · simp
    · split
      · simp
      · split <;> simp

/-- Each scheduled retry in a run starting at retry count `n` carries the
countdown `2 ^ i * 60` for its own retry count `i`, with `n ≤ i < 8`, and at
most `max_retries - n` retries are ever scheduled. -/
theorem run_et_task_sched_sound (fail : Nat → Option String) :
    ∀ k n, max_retries - n ≤ k →
      (∀ p ∈ (run_et_task fail n).sched,
        p.2 = 2 ^ p.1 * 60 ∧ n ≤ p.1 ∧ p.1 < max_retries) ∧
      (run_et_task fail n).sched.length ≤ max_retries - n := by
  intro k
  induction k with
  | zero =>
    intro n hn
    rw [run_et_task.eq_def]
    split
    · simp
    · split
      · simp
      · split
        · omega
        · split <;> simp
  | succ k ih =>
    intro n hn
    rw [run_et_task.eq_def]
    split
    · simp
    · split
      · simp
      · split
        · rename_i hlt
          have hrec := ih (n + 1) (by omega)
          refine ⟨?_, ?_⟩
          · intro p hp
            simp only [List.mem_cons] at hp
            rcases hp with hp | hp
            · subst hp
              exact ⟨rfl, le_refl n, hlt⟩
            · have h2 := hrec.1 p hp
              exact ⟨h2.1, by omega, h2.2.2⟩
          · simp only [List.length_cons]
            have := hrec.2
            omega
        · split <;> simp

theorem run_et_task_attempts_eq (fail : Nat → Option String) :
    ∀ k n, max_retries - n ≤ k →
      (run_et_task fail n).attempts = (run_et_task fail n).sched.length + 1 := by
  intro k
  induction k with
  | zero =>
    intro n hn
    rw [run_et_task.eq_def]
    split
    · simp
    · split
      · simp
      · split
        · omega
        · split <;> simp
  | succ k ih =>
    intro n hn
    rw [run_et_task.eq_def]
    split
    · simp
    · split
      · simp
      · split
        · simp only [List.length_cons]
          rw [ih (n + 1) (by omega)]
        · split <;> simp

/-- A run started at the retry bound with a persistently failing, non-ignored
error terminates at once: the error is re-raised, or suppressed exactly when
its message matches the post-retry ignore list; no retry is scheduled. -/
theorem run_et_task_exhausted (fail : Nat → Option String) (msg : String)
    (h0 : fail max_retries = some msg)
    (h1 : matchesIgnore IGNORE_ERROR_MSGS msg = false) :
    run_et_task fail max_retries =
      ⟨1, [], if matchesIgnore IGNORE_ERROR_MSGS_POST_RETRY msg = true
              then JobOutcome.success else JobOutcome.raised msg⟩ := by
  rw [run_et_task.eq_def, h0]
  simp only [h1, Bool.false_eq_true, if_false, lt_self_iff_false, dite_false]
  split
  · rename_i h2
    simp [h2]
  · rename_i h2
    simp only [Bool.not_eq_true] at h2
    simp [h2]

/-- A run over a persistently failing, never-ignored error walks the full
retry ladder. -/
theorem run_et_task_persistent (fail : Nat → Option String) (msg : Nat → String) :
    ∀ k n, n ≤ max_retries → max_retries - n = k →
      (∀ i, n ≤ i → i ≤ max_retries → fail i = some (msg i) ∧
        matchesIgnore IGNORE_ERROR_MSGS (msg i) = false) →
      run_et_task fail n =
        ⟨max_retries - n + 1,
         (List.range' n (max_retries - n)).map (fun i => (i, 2 ^ i * 60)),
         if matchesIgnore IGNORE_ERROR_MSGS_POST_RETRY (msg max_retries) = true
         then JobOutcome.success else JobOutcome.raised (msg max_retries)⟩ := by
  intro k
  induction k with
  | zero =>
    intro n hn hk hfail
    have hn8 : n = max_retries := by omega
    subst hn8
    have h := run_et_task_exhausted fail (msg max_retries)
      (hfail max_retries (le_refl _) (le_refl _)).1
      (hfail max_retries (le_refl _) (le_refl _)).2
    rw [h]
    simp
  | succ k ih =>
    intro n hn hk hfail
    have hlt : n < max_retries := by omega
    have hfn := hfail n (le_refl n) (by omega)
    rw [run_et_task.eq_def, hfn.1]
    simp only [hfn.2, Bool.false_eq_true, if_false, hlt, dite_true]
    rw [ih (n + 1) (by omega) (by omega) (fun i hi hi8 => hfail i (by omega) hi8)]
    have hrange : List.range' n (max_retries - n) =
        n :: List.range' (n + 1) (max_retries - (n + 1)) := by
      have : max_retries - n = (max_retries - (n + 1)) + 1 := by omega
      rw [this, List.range'_succ]
    rw [hrange]
    simp only [List.map_cons, RetryRun.mk.injEq]
    refine ⟨by omega, ?_, ?_⟩ <;> simp

/-- C5: for an `et_task` job whose underlying function persistently raises a
transient-I/O error not matching the ignore lists, retry `n` (0-indexed) is
scheduled with countdown `60 * 2 ^ n` seconds, and after the retry bound of
`max_retries = 8` the job terminates — re-raising the error, or suppressing it
when it matches the post-retry ignore list — with no further attempt: in
every run at most `max_retries + 1` executions happen and every scheduled
retry `n` has delay `60 * 2 ^ n` with `n < 8`. -/
theorem et_task_retry_policy (fail : Nat → Option String) (msg : Nat → String) :
    ((run_et_task fail 0).attempts ≤ max_retries + 1 ∧
     ∀ p ∈ (run_et_task fail 0).sched, p.2 = 60 * 2 ^ p.1 ∧ p.1 < max_retries) ∧
    ((∀ i, i ≤ max_retries → fail i = some (msg i) ∧
        matchesIgnore IGNORE_ERROR_MSGS (msg i) = false) →
      run_et_task fail 0 =
        ⟨max_retries + 1, (List.range max_retries).map (fun i => (i, 60 * 2 ^ i)),
         if matchesIgnore IGNORE_ERROR_MSGS_POST_RETRY (msg max_retries) = true
         then JobOutcome.success else JobOutcome.raised (msg max_retries)⟩) := by
  constructor
  · have hs := run_et_task_sched_sound fail (max_retries) 0 (by omega)
    have ha := run_et_task_attempts_eq fail (max_retries) 0 (by omega)
    constructor
    · rw [ha]
      have := hs.2
      omega
    · intro p hp
      have h := hs.1 p hp
      exact ⟨by rw [h.1]; ring, h.2.2⟩
  · intro hfail
    have h := run_et_task_persistent fail msg (max_retries) 0 (by omega) (by omega)
      (fun i _ hi8 => hfail i hi8)
    rw [h]
    simp only [Nat.sub_zero, RetryRun.mk.injEq]
    refine ⟨by simp, ?_, by simp⟩
    rw [List.range_eq_range']
    exact List.map_congr_left (fun i _ => by rw [Nat.mul_comm])

/-- C5 instantiated: a job failing every time with "boom" is retried with
countdowns 60, 120, ..., 7680 and then raises. -/
theorem et_task_retry_policy_witness :
    run_et_task (fun _ => some "boom") 0 =
      ⟨max_retries + 1, (List.range max_retries).map (fun i => (i, 60 * 2 ^ i)),
       JobOutcome.raised "boom"⟩ := by
  have h := (et_task_retry_policy (fun _ => some "boom") (fun _ => "boom")).2
    (fun i _ => ⟨rfl, by decide⟩)
  rw [h]
  have h2 : matchesIgnore IGNORE_ERROR_MSGS_POST_RETRY "boom" = false := by decide
  rw [h2]
  simp

/-- C6: with the maintenance flag set and the task not exempt, exactly one
QueuedTask record (carrying name, args and kwargs) is created and the wrapped
function never runs; whenever admission is granted (flag clear, or task
exempt) nothing is queued and the wrapped function runs at least once.
Admission is denied iff the flag is true and the name is not exempt
(`gate_allows`, the spec §4.2 `admit` predicate). -/
theorem et_task_maintenance_gate (m : Bool) (name : String) (args : List String)
    (kwargs : List (String × String)) (fail : Nat → Option String) :
    (gate_allows m name = false →
      et_task_invoke m name args kwargs fail =
        ⟨[⟨name, args, kwargs⟩], 0, [], JobOutcome.queued⟩) ∧
    (gate_allows m name = true →
      (et_task_invoke m name args kwargs fail).queued = [] ∧
      1 ≤ (et_task_invoke m name args kwargs fail).attempts) := by
  constructor
  · intro h
    unfold gate_allows at h
    have h2 : (m && !(MAINTENANCE_EXEMPT.contains name)) = true := by
      cases hb : (m && !(MAINTENANCE_EXEMPT.contains name)) with
      | true => rfl
      | false => rw [hb] at h; simp at h
    unfold et_task_invoke
    rw [h2]
    simp
  · intro h
    unfold gate_allows at h
    have h2 : (m && !(MAINTENANCE_EXEMPT.contains name)) = false := by
      cases hb : (m && !(MAINTENANCE_EXEMPT.contains name)) with
      | false => rfl
      | true => rw [hb] at h; simp at h
    unfold et_task_invoke
    rw [h2]
    simp [run_et_task_attempts_pos]

/-- C6 instantiated: under maintenance, a non-exempt task is queued untouched
while an exempt one runs. -/
theorem et_task_maintenance_gate_witness :
    et_task_invoke true "news.tasks.upsert_user" [] [] (fun _ => none) =
      ⟨[⟨"news.tasks.upsert_user", [], []⟩], 0, [], JobOutcome.queued⟩ ∧
    (et_task_invoke true "news.tasks.add_sms_user" [] [] (fun _ => none)).queued =
      [] :=
  ⟨(et_task_maintenance_gate true "news.tasks.upsert_user" [] []
      (fun _ => none)).1 (by decide),
   ((et_task_maintenance_gate true "news.tasks.add_sms_user" [] []
      (fun _ => none)).2 (by decide)).1⟩

/-- C8: a job whose first execution raises a transient-I/O error matching the
pre-retry ignore list returns normally: one attempt, no retry scheduled, a
success outcome, and no FailedTask record. -/
theorem et_task_ignored_error_terminal (name : String) (args : List String)
    (kwargs : List (String × String)) (fail : Nat → Option String) (msg : String)
    (h0 : fail 0 = some msg)
    (h1 : matchesIgnore IGNORE_ERROR_MSGS msg = true) :
    et_task_invoke false name args kwargs fail = ⟨[], 1, [], JobOutcome.success⟩ ∧
    failed_records true name
      (et_task_invoke false name args kwargs fail).outcome = [] := by
  have hr : run_et_task fail 0 = ⟨1, [], JobOutcome.success⟩ := by
    rw [run_et_task.eq_def, h0]
    simp [h1]
  constructor
  · simp [et_task_invoke, hr]
  · simp [et_task_invoke, hr, failed_records]

/-- C8 instantiated: an "InvalidEmailAddress" failure terminates the job as a
silent success. -/
theorem et_task_ignored_error_terminal_witness :
    et_task_invoke false "news.tasks.upsert_user" [] []
        (fun _ => some "InvalidEmailAddress") =
      ⟨[], 1, [], JobOutcome.success⟩ :=
  (et_task_ignored_error_terminal "news.tasks.upsert_user" [] []
    (fun _ => some "InvalidEmailAddress") "InvalidEmailAddress" rfl (by decide)).1

/-- C7: a call failing with session-expired triggers exactly one
re-authentication and exactly one retried call, whose success is returned;
a second consecutive expiry — or any error of the retried call — propagates
with no further retry in the same invocation, and a first failure of any
other kind propagates immediately with no re-authentication. -/
theorem call_salesforce_refresh (attempt : Nat → SFCallResult) :
    (attempt 0 = SFCallResult.expired →
      (call_salesforce attempt).logins = 1 ∧ (call_salesforce attempt).calls = 2) ∧
    (∀ r, attempt 0 = SFCallResult.expired → attempt 1 = SFCallResult.ok r →
      call_salesforce attempt = ⟨2, 1, SFOutcome.ok r⟩) ∧
    (∀ e, attempt 0 = SFCallResult.expired → attempt 1 = SFCallResult.err e →
      call_salesforce attempt = ⟨2, 1, SFOutcome.err e⟩) ∧
    (attempt 0 = SFCallResult.expired → attempt 1 = SFCallResult.expired →
      call_salesforce attempt = ⟨2, 1, SFOutcome.expiredError⟩) ∧
    (∀ e, attempt 0 = SFCallResult.err e →
      call_salesforce attempt = ⟨1, 0, SFOutcome.err e⟩) ∧
    (∀ r, attempt 0 = SFCallResult.ok r →
      call_salesforce attempt = ⟨1, 0, SFOutcome.ok r⟩) := by
  refine ⟨?_, ?_, ?_, ?_, ?_, ?_⟩
  · intro h
    unfold call_salesforce
    rw [h]
    cases h1 : attempt 1 <;> simp
  · intro r h h1
    unfold call_salesforce
    rw [h, h1]
  · intro e h h1
    unfold call_salesforce
    rw [h, h1]
  · intro h h1
    unfold call_salesforce
    rw [h, h1]
  · intro e h
    unfold call_salesforce
    rw [h]
  · intro r h
    unfold call_salesforce
    rw [h]

/-- C7 instantiated: one expiry then success re-authenticates once and
succeeds; two consecutive expiries propagate after exactly two calls. -/
theorem call_salesforce_refresh_witness :
    call_salesforce (fun n => if n = 0 then SFCallResult.expired
        else SFCallResult.ok "row") = ⟨2, 1, SFOutcome.ok "row"⟩ ∧
    call_salesforce (fun _ => SFCallResult.expired) =
      ⟨2, 1, SFOutcome.expiredError⟩ :=
  ⟨(call_salesforce_refresh (fun n => if n = 0 then SFCallResult.expired
      else SFCallResult.ok "row")).2.1 "row" rfl rfl,
   (call_salesforce_refresh (fun _ => SFCallResult.expired)).2.2.2.1 rfl rfl⟩

example : mogrify_message_id "welcome" "fr" "H" = "fr_welcome" := by decide

example : mogrify_message_id "welcome" "pt" "T" = "pt_welcome_T" := by decide

example : mogrify_message_id "welcome" "" "T" = "welcome_T" := by decide

theorem welcome_step_eq_none (user_lang : Option String) (format : String)
    (acc : List String) (nl : NewsletterRec)
    (h : newsletter_welcome_id user_lang format nl = none) :
    welcome_step user_lang format acc nl = acc := by
  unfold welcome_step
  rw [h]

theorem welcome_step_eq_some (user_lang : Option String) (format : String)
    (acc : List String) (nl : NewsletterRec) (w : String)
    (h : newsletter_welcome_id user_lang format nl = some w) :
    welcome_step user_lang format acc nl =
      if w ∈ acc then acc else acc ++ [w] := by
  unfold welcome_step
  rw [h]

theorem welcome_fold_nodup (user_lang : Option String) (format : String) :
    ∀ (L : List NewsletterRec) (acc : List String), acc.Nodup →
      (L.foldl (welcome_step user_lang format) acc).Nodup := by
  intro L
  induction L with
  | nil => exact fun acc h => h
  | cons nl rest ih =>
    intro acc h
    simp only [List.foldl_cons]
    cases hw : newsletter_welcome_id user_lang format nl with
    | none =>
      rw [welcome_step_eq_none _ _ _ _ hw]
      exact ih acc h
    | some w =>
      rw [welcome_step_eq_some _ _ _ _ _ hw]
      by_cases hmem : w ∈ acc
      · rw [if_pos hmem]
        exact ih acc h
      · rw [if_neg hmem]
        refine ih _ ?_
        rw [List.nodup_append]
        exact ⟨h, List.nodup_singleton w, by simpa using hmem⟩

theorem welcome_fold_mem (user_lang : Option String) (format : String) :
    ∀ (L : List NewsletterRec) (acc : List String) (m : String),
      m ∈ L.foldl (welcome_step user_lang format) acc ↔
      m ∈ acc ∨ ∃ nl ∈ L, newsletter_welcome_id user_lang format nl = some m := by
  intro L
  induction L with
  | nil => simp
  | cons nl rest ih =>
    intro acc m
    simp only [List.foldl_cons, List.mem_cons]
    cases hw : newsletter_welcome_id user_lang format nl with
    | none =>
      rw [welcome_step_eq_none _ _ _ _ hw, ih]
      constructor
      · rintro (h1 | ⟨x, hx, h1⟩)
        · exact Or.inl h1
        · exact Or.inr ⟨x, Or.inr hx, h1⟩
      · rintro (h1 | ⟨x, hx | hx, h1⟩)
        · exact Or.inl h1
        · rw [hx] at h1
          rw [h1] at hw
          cases hw
        · exact Or.inr ⟨x, hx, h1⟩
    | some w =>
      rw [welcome_step_eq_some _ _ _ _ _ hw, ih]
      have hacc : m ∈ (if w ∈ acc then acc else acc ++ [w]) ↔ m ∈ acc ∨ m = w := by
        by_cases hmem : w ∈ acc
        · rw [if_pos hmem]
          constructor
          · exact Or.inl
          · rintro (h1 | h1)
            · exact h1
            · exact h1 ▸ hmem
        · rw [if_neg hmem]
          simp [List.mem_append]
      rw [hacc]
      constructor
      · rintro ((h1 | h1) | ⟨x, hx, h1⟩)
        · exact Or.inl h1
        · exact Or.inr ⟨nl, Or.inl rfl, by rw [hw, h1]⟩
        · exact Or.inr ⟨x, Or.inr hx, h1⟩
      · rintro (h1 | ⟨x, hx | hx, h1⟩)
        · exact Or.inl (Or.inl h1)
        · rw [hx] at h1
          rw [h1] at hw
          have hw2 : m = w := by injection hw
          exact Or.inl (Or.inr hw2)
        · exact Or.inr ⟨x, hx, h1⟩

/-- C9: `send_welcomes` dispatches each distinct mogrified welcome id at most
once (the dispatch list has no duplicates), and any id that some requested
newsletter resolves to — via that newsletter's own language fallback and the
format suffix — is dispatched exactly once, even when several newsletters
resolve to it. -/
theorem send_welcomes_dedup (db : List NewsletterRec) (user_lang : Option String)
    (newsletter_slugs : List String) (format : String) (nl : NewsletterRec)
    (m : String)
    (h1 : nl ∈ db) (h2 : nl.slug ∈ newsletter_slugs)
    (h3 : newsletter_welcome_id user_lang format nl = some m) :
    (send_welcomes db user_lang newsletter_slugs format).Nodup ∧
    (send_welcomes db user_lang newsletter_slugs format).count m = 1 := by
  have hne : newsletter_slugs ≠ [] := List.ne_nil_of_mem h2
  unfold send_welcomes
  rw [if_neg hne]
  have hnodup := welcome_fold_nodup user_lang format
    (db.filter (fun nl => decide (nl.slug ∈ newsletter_slugs))) [] List.nodup_nil
  have hmem := (welcome_fold_mem user_lang format
    (db.filter (fun nl => decide (nl.slug ∈ newsletter_slugs))) [] m).mpr
    (Or.inr ⟨nl, List.mem_filter.mpr ⟨h1, by simpa using h2⟩, h3⟩)
  exact ⟨hnodup, List.count_eq_one_of_mem hnodup hmem⟩

/-- C9 instantiated: two newsletters sharing the welcome id "w" and the
language "en" produce a single dispatch of "en_w". -/
theorem send_welcomes_dedup_witness :
    (send_welcomes [⟨"n1", true, "w", ["en"]⟩, ⟨"n2", true, "w", ["en"]⟩] none
        ["n1", "n2"] "H").count "en_w" = 1 :=
  (send_welcomes_dedup
    [⟨"n1", true, "w", ["en"]⟩, ⟨"n2", true, "w", ["en"]⟩] none ["n1", "n2"] "H"
    ⟨"n1", true, "w", ["en"]⟩ "en_w" (by decide) (by decide) (by decide)).2

/-- C10: every key of `FSA_FIELDS` fails Python 2-tuple unpacking (none has
exactly two characters), so whatever iteration order the dict yields, the
loop of `update_student_ambassadors` raises ValueError at its first entry and
`sfdc.update` is never reached. -/
theorem update_student_ambassadors_never_writes (order : List String)
    (data : List (String × String)) (token : String)
    (h1 : order ≠ [])
    (h2 : ∀ k ∈ order, k ∈ FSA_FIELDS.map Prod.fst) :
    update_student_ambassadors order data token = Except.error "ValueError" ∧
    ∀ k ∈ FSA_FIELDS.map Prod.fst, pyUnpack2 k = Except.error "ValueError" := by
  have hkeys : ∀ k ∈ FSA_FIELDS.map Prod.fst,
      pyUnpack2 k = Except.error "ValueError" := by
    intro k hk
    fin_cases hk <;> rfl
  refine ⟨?_, hkeys⟩
  cases order with
  | nil => exact absurd rfl h1
  | cons k rest =>
    have hk := hkeys k (h2 k (List.mem_cons_self k rest))
    unfold update_student_ambassadors
    simp only [List.foldlM_cons, hk]
    rfl

/-- C10 instantiated: with the source-listed key order, empty request data
and token "t", the task errors before any write. -/
theorem update_student_ambassadors_never_writes_witness :
    update_student_ambassadors (FSA_FIELDS.map Prod.fst) [] "t" =
      Except.error "ValueError" :=
  (update_student_ambassadors_never_writes (FSA_FIELDS.map Prod.fst) [] "t"
    (by decide) (fun k hk => hk)).1

end Basket
